import Mathlib

/-!
Verification of the `SpeciesCard` component
(`src/app/species/species-card.tsx`) of the species/profile web
application, together with the zod validation schema `speciesSchema`
it submits through.

The embedding is shallow: the zod schema chain becomes pure Lean
functions on the raw form values, the React component state becomes an
explicit `CardState` record, its event handlers become pure state
transformers that also emit a list of observable `Effect`s (Supabase
calls, `router.refresh()`, toasts), and the asynchronous Supabase
result is passed in as an explicit `StoreResult` parameter.
-/

namespace SpeciesCard

/-! ## JavaScript string trimming

JS `String.prototype.trim` removes leading and trailing whitespace.
We model it on the character list: drop whitespace from the front,
then from the back. -/

/-- Leading-whitespace removal (the front half of JS `trim`). -/
def trimLeftChars (l : List Char) : List Char :=
  l.dropWhile Char.isWhitespace

/-- Trailing-whitespace removal (the back half of JS `trim`). -/
def trimRightChars (l : List Char) : List Char :=
  (l.reverse.dropWhile Char.isWhitespace).reverse

/-- Model of JS `String.prototype.trim`: drop whitespace at both ends. -/
def jsTrim (s : String) : String :=
  ⟨trimRightChars (trimLeftChars s.data)⟩

/-! ## The zod `speciesSchema` (species-card.tsx lines 39–65)

Raw form values come in as JS strings / numbers / nulls; the schema
validates and transforms them. `Option` models `null`ability, and a
failed parse is `none` at the outer level. -/

/-- `z.enum(["Animalia", "Plantae", "Fungi", "Protista", "Archaea",
"Bacteria"])` (line 39). -/
inductive Kingdom where
  | Animalia | Plantae | Fungi | Protista | Archaea | Bacteria
deriving DecidableEq, Repr

/-- A JS `number`: either NaN or a finite value (modelled as a
rational; JS floats relevant here are small integers and short
decimals, which ℚ represents exactly). -/
inductive JsNumber where
  | nan : JsNumber
  | num : ℚ → JsNumber
deriving DecidableEq, Repr

/-- The transform shared by `common_name`, `image` and `description`
(lines 51, 59, 64):
`(val) => (!val || val.trim() === "" ? null : val.trim())`.
JS `!val` is true exactly for `null` and `""`, both of which are also
caught by the `val.trim() === ""` test. -/
def normNullable : Option String → Option String
  | none => none
  | some s => if jsTrim s = "" then none else some (jsTrim s)

/-- `scientific_name: z.string().trim().min(1).transform((val) =>
val?.trim())` (lines 42–46): `.trim()` rewrites the value, `.min(1)`
then requires nonempty, and the final transform trims again. -/
def parseScientificName (s : String) : Option String :=
  let t := jsTrim s
  if 1 ≤ t.length then some (jsTrim t) else none

/-- Model of zod's `.url()` check (line 56), i.e. of
`new URL(val)` succeeding: after stripping surrounding whitespace
(which the WHATWG URL parser ignores) the value must consist of an
alphabetic-initial scheme followed by `:` and a nonempty remainder
with no interior whitespace.  In particular `""` and whitespace-only
strings are rejected, since `new URL("")` throws. -/
def isUrl (s : String) : Bool :=
  let t := (jsTrim s).data
  match t with
  | [] => false
  | c :: _ =>
    c.isAlpha &&
    (let scheme := t.takeWhile (fun x => x ≠ ':')
     let rest := t.drop (scheme.length + 1)
     decide (scheme.length < t.length) && !rest.isEmpty &&
       scheme.all (fun x => x.isAlphanum || x = '+' || x = '-' || x = '.') &&
       rest.all (fun x => !x.isWhitespace))

/-- `image: z.string().url().nullable().transform(...)` (lines 54–59):
`null` passes the nullable check untouched; a string must first pass
`.url()` and only then reaches the empty/whitespace → `null`,
else-trim transform. -/
def parseImage : Option String → Option (Option String)
  | none => some none
  | some s => if isUrl s then some (normNullable (some s)) else none

/-- `common_name` / `description`: `z.string().nullable().transform(...)`
(lines 47–51, 60–64): never fails, only normalizes. -/
def parseNullableText (v : Option String) : Option (Option String) :=
  some (normNullable v)

/-- `total_population: z.number().int().positive().min(1).nullable()`
(line 53): `null` passes; a number must be a non-NaN integer that is
positive and at least 1. -/
def parsePopulation : Option JsNumber → Option (Option ℚ)
  | none => some none
  | some JsNumber.nan => none
  | some (JsNumber.num q) =>
    if q.den = 1 && decide (0 < q) && decide (1 ≤ q) then some (some q)
    else none

/-- Model of JS `Number(string)` / unary `+` on a string: surrounding
whitespace is ignored, the empty (or whitespace-only) string coerces
to `0`, an optionally signed decimal literal coerces to its value, and
anything else to NaN. -/
def parseDecimalDigits : List Char → Option ℕ
  | [] => none
  | l =>
    if l.all Char.isDigit then
      some (l.foldl (fun acc c => 10 * acc + (c.toNat - 48)) 0)
    else none

def parseDecimalCore (l : List Char) : Option ℚ :=
  match l.splitOn '.' with
  | [intPart] => (parseDecimalDigits intPart).map (fun n => (n : ℚ))
  | [intPart, fracPart] =>
    match parseDecimalDigits intPart, parseDecimalDigits fracPart with
    | some n, some f => some ((n : ℚ) + (f : ℚ) / ((10 : ℚ) ^ fracPart.length))
    | _, _ => none
  | _ => none

def jsToNumber (s : String) : JsNumber :=
  let t := (jsTrim s).data
  match t with
  | [] => JsNumber.num 0
  | '-' :: rest =>
    match parseDecimalCore rest with
    | some q => JsNumber.num (-q)
    | none => JsNumber.nan
  | _ =>
    match parseDecimalCore t with
    | some q => JsNumber.num q
    | none => JsNumber.nan

/-- Raw form values held by react-hook-form for the species form: the
draft the user edits.  `Option` fields are `null`able inputs. -/
structure Draft where
  scientific_name : String
  common_name : Option String
  kingdom : Kingdom
  total_population : Option JsNumber
  image : Option String
  description : Option String
deriving DecidableEq, Repr

/-- The output of a successful `speciesSchema` parse: the `data`
argument `onSubmit` receives. -/
structure ParsedData where
  scientific_name : String
  common_name : Option String
  kingdom : Kingdom
  total_population : Option ℚ
  image : Option String
  description : Option String
deriving DecidableEq, Repr

/-- Whole-schema validation: `zodResolver(speciesSchema)` run on a
draft.  Field order follows the object literal; zod validates each
field independently and succeeds only when all do. -/
def validate (d : Draft) : Option ParsedData := do
  let sci ← parseScientificName d.scientific_name
  let com ← parseNullableText d.common_name
  let pop ← parsePopulation d.total_population
  let img ← parseImage d.image
  let desc ← parseNullableText d.description
  some ⟨sci, com, d.kingdom, pop, img, desc⟩

/-! ## The `SpeciesCard` component (species-card.tsx lines 67–366)

Props are immutable per mount; the mutable React state is collected in
`CardState`.  Each handler becomes a pure function; the awaited
Supabase response is an explicit `StoreResult` argument.  Observable
side effects (Supabase calls, `router.refresh()`, `toast`) are
returned as an ordered list. -/

/-- The `species` prop row
(`Database["public"]["Tables"]["species"]["Row"]`). -/
structure Species where
  id : ℕ
  scientific_name : String
  common_name : Option String
  kingdom : Kingdom
  total_population : Option ℤ
  image : Option String
  description : Option String
  author : String
deriving DecidableEq, Repr

/-- The two props of `SpeciesCard` (line 67). -/
structure Props where
  species : Species
  sessionId : String
deriving DecidableEq, Repr

/-- The `useState` cells of the component (lines 69–73) plus the form
values managed by react-hook-form. -/
structure CardState where
  openDialog : Bool
  openDelete : Bool
  isEditing : Bool
  formValues : Draft
deriving DecidableEq, Repr

/-- The outcome of an awaited Supabase call
(`const { error } = await supabase...`). -/
inductive StoreResult where
  | ok : StoreResult
  | error : String → StoreResult
deriving DecidableEq, Repr

/-- `toast` variants: default (success message) vs `"destructive"`. -/
inductive ToastKind where
  | success | error
deriving DecidableEq, Repr

/-- Observable side effects of the handlers. -/
inductive Effect where
  | updateRecord : ℕ → ParsedData → Effect
  | deleteRecord : ℕ → Effect
  | refresh : Effect
  | toast : ToastKind → Effect
  | validationErrors : Effect
deriving DecidableEq, Repr

def Effect.isRefresh : Effect → Bool
  | Effect.refresh => true
  | _ => false

def Effect.isUpdate : Effect → Bool
  | Effect.updateRecord _ _ => true
  | _ => false

def Effect.isToast (k : ToastKind) : Effect → Bool
  | Effect.toast k' => k == k'
  | _ => false

/-- `defaultValues` (lines 76–83): the form's initial values, rebuilt
from the `species` prop on every render. -/
def defaultValues (sp : Species) : Draft :=
  { scientific_name := sp.scientific_name
    common_name := sp.common_name
    kingdom := sp.kingdom
    total_population := sp.total_population.map (fun n => JsNumber.num (n : ℚ))
    image := sp.image
    description := sp.description }

/-- Converts the parsed data back to raw form values, as
`form.reset(data)` does on line 126. -/
def dataToDraft (d : ParsedData) : Draft :=
  { scientific_name := d.scientific_name
    common_name := d.common_name
    kingdom := d.kingdom
    total_population := d.total_population.map JsNumber.num
    image := d.image
    description := d.description }

/-- `onSubmit` (lines 96–134) as reached through
`form.handleSubmit(onSubmit)` (line 193): the resolver validates
first; on validation failure `onSubmit` never runs and the errors are
shown inline.  On success the update is sent; a Supabase `error`
yields a destructive toast and an early return, otherwise editing
stops, the form is reset to the parsed data, the router refreshes and
a success toast is shown. -/
def submitForm (p : Props) (st : CardState) (res : StoreResult) :
    CardState × List Effect :=
  match validate st.formValues with
  | none => (st, [Effect.validationErrors])
  | some data =>
    match res with
    | StoreResult.error _ =>
      (st, [Effect.updateRecord p.species.id data, Effect.toast ToastKind.error])
    | StoreResult.ok =>
      ({ st with isEditing := false, formValues := dataToDraft data },
       [Effect.updateRecord p.species.id data, Effect.refresh,
        Effect.toast ToastKind.success])

/-- `startEditing` (lines 136–139). -/
def startEditing (st : CardState) : CardState :=
  { st with isEditing := true }

/-- `handleCancel` (lines 141–147): `form.reset(defaultValues)` then
`setIsEditing(false)`. -/
def handleCancel (p : Props) (st : CardState) : CardState :=
  { st with formValues := defaultValues p.species, isEditing := false }

/-- `startDeleting` (lines 149–162): the delete result is awaited but
never inspected; the handler then refreshes and toasts success
unconditionally, and never touches `openDelete`. -/
def startDeleting (p : Props) (st : CardState) (_res : StoreResult) :
    CardState × List Effect :=
  (st,
   [Effect.deleteRecord p.species.id, Effect.refresh,
    Effect.toast ToastKind.success])

/-- `handleDeleteCancel` (lines 164–167). -/
def handleDeleteCancel (st : CardState) : CardState :=
  { st with openDelete := false }

/-- A single user edit of one form field while the inputs are
editable. The population input coerces its string through
`+event.target.value` (line 271); the text inputs hand the string
through as is, so an edited nullable field holds a string, never
`null`. -/
inductive FieldEdit where
  | scientificName : String → FieldEdit
  | commonName : String → FieldEdit
  | kingdom : Kingdom → FieldEdit
  | population : String → FieldEdit
  | image : String → FieldEdit
  | description : String → FieldEdit
deriving DecidableEq, Repr

def applyFieldEdit (d : Draft) : FieldEdit → Draft
  | FieldEdit.scientificName s => { d with scientific_name := s }
  | FieldEdit.commonName s => { d with common_name := some s }
  | FieldEdit.kingdom k => { d with kingdom := k }
  | FieldEdit.population s => { d with total_population := some (jsToNumber s) }
  | FieldEdit.image s => { d with image := some s }
  | FieldEdit.description s => { d with description := some s }

/-- User interactions on a mounted card.  Each carries the store's
response where the handler awaits one. -/
inductive Event where
  | setOpen : Bool → Event
  | edit : FieldEdit → Event
  | clickEdit : Event
  | clickCancel : Event
  | submit : StoreResult → Event
  | setDeleteOpen : Bool → Event
  | clickConfirmDelete : StoreResult → Event
  | clickCancelDelete : Event
deriving DecidableEq, Repr

def Event.isSubmit : Event → Bool
  | Event.submit _ => true
  | _ => false

/-- `species.author == sessionId` (line 327): the ownership gate on
every mutating control. -/
def isOwner (p : Props) : Bool :=
  p.species.author == p.sessionId

/-- One interaction step.  `none` means the control that would fire
the event is not rendered (or not enabled) in the current state, per
the JSX: all form controls live inside the Learn More dialog; the
fields are editable only in editing mode; Edit and the delete dialog
render only for the owner outside editing mode; the delete
confirmation buttons additionally need the delete dialog open. -/
def step (p : Props) (st : CardState) :
    Event → Option (CardState × List Effect)
  | Event.setOpen b => some ({ st with openDialog := b }, [])
  | Event.edit f =>
    if st.openDialog && st.isEditing then
      some ({ st with formValues := applyFieldEdit st.formValues f }, [])
    else none
  | Event.clickEdit =>
    if st.openDialog && isOwner p && !st.isEditing then
      some (startEditing st, [])
    else none
  | Event.clickCancel =>
    if st.openDialog && isOwner p && st.isEditing then
      some (handleCancel p st, [])
    else none
  | Event.submit res =>
    if st.openDialog then some (submitForm p st res) else none
  | Event.setDeleteOpen b =>
    if st.openDialog && isOwner p && !st.isEditing then
      some ({ st with openDelete := b }, [])
    else none
  | Event.clickConfirmDelete res =>
    if st.openDialog && isOwner p && !st.isEditing && st.openDelete then
      some (startDeleting p st res)
    else none
  | Event.clickCancelDelete =>
    if st.openDialog && isOwner p && !st.isEditing && st.openDelete then
      some (handleDeleteCancel st, [])
    else none

/-- Initial state on mount (lines 69–92): both dialogs closed, not
editing, form values at the prop-derived defaults. -/
def initialState (p : Props) : CardState :=
  { openDialog := false
    openDelete := false
    isEditing := false
    formValues := defaultValues p.species }

/-- States a mounted card can reach through user interactions. -/
inductive Reachable (p : Props) : CardState → Prop where
  | init : Reachable p (initialState p)
  | next {st st' : CardState} {e : Event} {effs : List Effect} :
      Reachable p st → step p st e = some (st', effs) → Reachable p st'

/-- Run a sequence of interactions; an event whose control is not
rendered is impossible and leaves the state unchanged. -/
def runEvents (p : Props) (st : CardState) (es : List Event) : CardState :=
  es.foldl
    (fun s e =>
      match step p s e with
      | some r => r.1
      | none => s)
    st


/-! ## Concrete fixtures for witnesses and counterexamples -/

/-- A concrete species row owned by `"u1"`. -/
def sp0 : Species :=
  { id := 7, scientific_name := "A", common_name := none
    kingdom := Kingdom.Animalia, total_population := none
    image := none, description := none, author := "u1" }

/-- The owner viewing their own card. -/
def p0 : Props := { species := sp0, sessionId := "u1" }

/-- A non-owner viewing the same card. -/
def pNon : Props := { species := sp0, sessionId := "u2" }

/-- Detail dialog open, delete confirmation open, not editing. -/
def stDel : CardState :=
  { openDialog := true, openDelete := false, isEditing := false
    formValues := defaultValues sp0 }

/-- Delete confirmation dialog open. -/
def stDelOpen : CardState :=
  { openDialog := true, openDelete := true, isEditing := false
    formValues := defaultValues sp0 }

/-- Editing, with the draft's scientific name mutated to `"C"`. -/
def stEdit : CardState :=
  { openDialog := true, openDelete := false, isEditing := true
    formValues := { defaultValues sp0 with scientific_name := "C" } }

/-- Editing, with the untouched (valid) default draft. -/
def stValid : CardState :=
  { openDialog := true, openDelete := false, isEditing := true
    formValues := defaultValues sp0 }

/-- Editing, with the scientific name set to `"  Cavia aperea  "`. -/
def stCavia : CardState :=
  { openDialog := true, openDelete := false, isEditing := true
    formValues := { defaultValues sp0 with scientific_name := "  Cavia aperea  " } }

/-- Editing, with a whitespace-only scientific name. -/
def stBlankName : CardState :=
  { openDialog := true, openDelete := false, isEditing := true
    formValues := { defaultValues sp0 with scientific_name := "   " } }

/-- What `stCavia`'s draft parses to. -/
def dCavia : ParsedData :=
  { scientific_name := "Cavia aperea", common_name := none
    kingdom := Kingdom.Animalia, total_population := none
    image := none, description := none }

/-- What the default draft of `sp0` parses to. -/
def dSp0 : ParsedData :=
  { scientific_name := "A", common_name := none
    kingdom := Kingdom.Animalia, total_population := none
    image := none, description := none }

/-! ## Helper lemmas about trimming -/

theorem dropWhile_dropWhile (p : Char → Bool) (l : List Char) :
    (l.dropWhile p).dropWhile p = l.dropWhile p := by
  induction l with
  | nil => rfl
  | cons a t ih =>
    by_cases h : p a
    · simp [List.dropWhile, h, ih]
    · simp [List.dropWhile, h]

theorem trimLeftChars_idem (l : List Char) :
    trimLeftChars (trimLeftChars l) = trimLeftChars l := by
  simp [trimLeftChars, dropWhile_dropWhile]

theorem trimRightChars_idem (l : List Char) :
    trimRightChars (trimRightChars l) = trimRightChars l := by
  simp [trimRightChars, dropWhile_dropWhile]

/-- A list with no leading whitespace (a `dropWhile` fixed point) keeps
that property under any prefix. -/
theorem prefix_preserves_dropWhile_fixed (p : Char → Bool) {l l' : List Char}
    (hpre : l' <+: l) (hfix : l.dropWhile p = l) :
    l'.dropWhile p = l' := by
  cases l' with
  | nil => rfl
  | cons a t =>
    obtain ⟨r, hr⟩ := hpre
    subst hr
    rw [List.cons_append, List.dropWhile_cons] at hfix
    rw [List.dropWhile_cons]
    by_cases h : p a
    · rw [if_pos h] at hfix
      have hle := (List.dropWhile_suffix (l := t ++ r) (p := p)).length_le
      rw [hfix] at hle
      rw [List.length_cons] at hle
      exact absurd hle (Nat.not_succ_le_self _)
    · simp [if_neg h]

theorem trimRightChars_prefix_self (l : List Char) : trimRightChars l <+: l := by
  have h := List.dropWhile_suffix (l := l.reverse) (p := Char.isWhitespace)
  have := List.reverse_prefix.mpr h
  simpa [trimRightChars] using this

/-- Removing trailing whitespace preserves the absence of leading
whitespace. -/
theorem trimLeft_fixed_trimRight {l : List Char}
    (h : trimLeftChars l = l) :
    trimLeftChars (trimRightChars l) = trimRightChars l :=
  prefix_preserves_dropWhile_fixed _ (trimRightChars_prefix_self l) h

/-- JS `trim` is idempotent. -/
theorem jsTrim_idem (s : String) : jsTrim (jsTrim s) = jsTrim s := by
  unfold jsTrim
  congr 1
  show trimRightChars (trimLeftChars (trimRightChars (trimLeftChars s.data)))
      = trimRightChars (trimLeftChars s.data)
  rw [trimLeft_fixed_trimRight (trimLeftChars_idem s.data),
    trimRightChars_idem]

theorem dropWhile_eq_nil_of_all {p : Char → Bool} {l : List Char}
    (h : l.all p = true) : l.dropWhile p = [] := by
  induction l with
  | nil => rfl
  | cons a t ih =>
    simp only [List.all_cons, Bool.and_eq_true] at h
    simp [List.dropWhile_cons, h.1, ih h.2]

/-- A string of nothing but whitespace trims to the empty string. -/
theorem jsTrim_eq_empty_of_all_whitespace {s : String}
    (h : s.data.all Char.isWhitespace = true) : jsTrim s = "" := by
  have h1 : trimLeftChars s.data = [] := dropWhile_eq_nil_of_all h
  show (⟨trimRightChars (trimLeftChars s.data)⟩ : String) = ⟨[]⟩
  rw [h1]
  rfl

/-- A non-`p` element of a list survives `dropWhile p`. -/
theorem mem_dropWhile_of_mem {p : Char → Bool} :
    ∀ {l : List Char} {x : Char}, x ∈ l → p x = false → x ∈ l.dropWhile p := by
  intro l
  induction l with
  | nil => intro x hx _; cases hx
  | cons a t ih =>
    intro x hx hxw
    rw [List.dropWhile_cons]
    by_cases hpa : p a
    · rw [if_pos hpa]
      rcases List.mem_cons.mp hx with he | ht
      · subst he; simp [hpa] at hxw
      · exact ih ht hxw
    · rw [if_neg hpa]
      exact hx

/-- A non-whitespace character survives trailing-whitespace removal. -/
theorem mem_trimRightChars_of_mem {l : List Char} {x : Char}
    (hx : x ∈ l) (hxw : x.isWhitespace = false) : x ∈ trimRightChars l := by
  unfold trimRightChars
  rw [List.mem_reverse]
  exact mem_dropWhile_of_mem (List.mem_reverse.mpr hx) hxw

/-- A string containing any non-whitespace character does not trim to
the empty string. -/
theorem jsTrim_ne_empty_of_not_all_whitespace {s : String}
    (h : ¬ s.data.all Char.isWhitespace = true) : ¬ jsTrim s = "" := by
  intro hempty
  apply h
  simp only [List.all_eq_true]
  intro c hc
  by_contra hcw
  rw [Bool.not_eq_true] at hcw
  have h1 : c ∈ trimLeftChars s.data := mem_dropWhile_of_mem hc hcw
  have h2 : c ∈ trimRightChars (trimLeftChars s.data) :=
    mem_trimRightChars_of_mem h1 hcw
  have hdata : (jsTrim s).data = [] := by rw [hempty]
  unfold jsTrim at hdata
  simp only at hdata
  rw [hdata] at h2
  cases h2

/-! ## Validation helper lemmas -/

theorem parseScientificName_none_of_ws {s : String}
    (h : s.data.all Char.isWhitespace = true) :
    parseScientificName s = none := by
  simp [parseScientificName, jsTrim_eq_empty_of_all_whitespace h]

theorem validate_none_of_ws_name {d : Draft}
    (h : d.scientific_name.data.all Char.isWhitespace = true) :
    validate d = none := by
  unfold validate
  rw [parseScientificName_none_of_ws h]
  rfl

/-! ## Claims -/

/-- C5: for the nullable text fields (common name and description),
the normalization run at validation maps any empty or whitespace-only
string to null, maps any other string to its trimmed form, is the
transform the schema actually applies, and is idempotent. -/
theorem nullable_text_normalization (s : String) (v : Option String) :
    (s.data.all Char.isWhitespace = true → normNullable (some s) = none) ∧
    (s.data.all Char.isWhitespace = false →
      normNullable (some s) = some (jsTrim s)) ∧
    parseNullableText v = some (normNullable v) ∧
    normNullable (normNullable v) = normNullable v := by
  refine ⟨?_, ?_, rfl, ?_⟩
  · intro h
    simp [normNullable, jsTrim_eq_empty_of_all_whitespace h]
  · intro h
    have hne := jsTrim_ne_empty_of_not_all_whitespace (s := s) (by simp [h])
    simp [normNullable, hne]
  · cases v with
    | none => rfl
    | some s =>
      by_cases h : jsTrim s = ""
      · simp [normNullable, h]
      · simp [normNullable, h, jsTrim_idem]

/-- Witness for C5 at concrete inputs: `"   "` normalizes to null,
`"  Felis catus  "` to `"Felis catus"`, and re-normalizing the latter
changes nothing. -/
theorem nullable_text_normalization_witness :
    normNullable (some "   ") = none ∧
    normNullable (some "  Felis catus  ") = some "Felis catus" ∧
    normNullable (normNullable (some "  Felis catus  "))
      = normNullable (some "  Felis catus  ") := by
  refine ⟨(nullable_text_normalization "   " none).1 (by decide), ?_, ?_⟩
  · have h := (nullable_text_normalization "  Felis catus  " none).2.1 (by decide)
    rw [h]
    decide
  · exact (nullable_text_normalization "" (some "  Felis catus  ")).2.2.2

/-- C6: contrary to the schema comment, the empty string does NOT pass
the image field validation: `.url()` runs before the
empty-or-whitespace-to-null transform, so `""` fails with a URL error
(while the identical transform on `common_name` does map `""` to
null), and a draft whose image is `""` fails whole-schema validation. -/
theorem empty_image_rejected_by_url_check :
    parseImage (some "") = none ∧
    parseNullableText (some "") = some none ∧
    validate { defaultValues sp0 with image := some "" } = none ∧
    isUrl "https://example.org/a.jpg" = true := by decide

/-- C10: every edit of the population input stores
`+event.target.value`, a JS number, in the draft: the field becomes
`some` of the numeric coercion, never null; the empty string coerces
to 0; and 0 fails the positive-integer check while null itself would
pass. -/
theorem population_edit_never_null (d : Draft) (s : String) :
    (applyFieldEdit d (FieldEdit.population s)).total_population
      = some (jsToNumber s) ∧
    ((applyFieldEdit d (FieldEdit.population s)).total_population).isSome
      = true ∧
    jsToNumber "" = JsNumber.num 0 ∧
    parsePopulation (some (JsNumber.num 0)) = none ∧
    parsePopulation none = some none := by
  refine ⟨rfl, rfl, by decide, by decide, rfl⟩

/-- C4: a draft whose scientific name is empty or whitespace-only
fails validation, so submit performs no store call, surfaces the
validation errors inline, and leaves the state (editing included)
untouched. -/
theorem blank_name_blocks_submit (p : Props) (st : CardState)
    (res : StoreResult)
    (hws : st.formValues.scientific_name.data.all Char.isWhitespace = true)
    (he : st.isEditing = true) :
    (submitForm p st res).1 = st ∧
    (submitForm p st res).1.isEditing = true ∧
    (submitForm p st res).2 = [Effect.validationErrors] ∧
    (submitForm p st res).2.countP Effect.isUpdate = 0 := by
  have hv := validate_none_of_ws_name hws
  unfold submitForm
  rw [hv]
  exact ⟨rfl, he, rfl, rfl⟩

/-- Witness for C4: with the whitespace-only name `"   "`, submitting
leaves the state alone and only reports validation errors. -/
theorem blank_name_blocks_submit_witness :
    (submitForm p0 stBlankName StoreResult.ok).1 = stBlankName ∧
    (submitForm p0 stBlankName StoreResult.ok).2
      = [Effect.validationErrors] := by
  have h := blank_name_blocks_submit p0 stBlankName StoreResult.ok
    (by decide) (by decide)
  exact ⟨h.1, h.2.2.1⟩

/-- C3: when the draft validates but the store reports an error on
update, the whole state is preserved (editing stays on, the draft is
not reset), exactly one error toast fires, and neither a refresh nor a
success toast happens. -/
theorem update_failure_preserves_state (p : Props) (st : CardState)
    (msg : String) (d : ParsedData)
    (hv : validate st.formValues = some d) (he : st.isEditing = true) :
    (submitForm p st (StoreResult.error msg)).1 = st ∧
    (submitForm p st (StoreResult.error msg)).1.isEditing = true ∧
    (submitForm p st (StoreResult.error msg)).2.countP
      (Effect.isToast ToastKind.error) = 1 ∧
    (submitForm p st (StoreResult.error msg)).2.countP
      (Effect.isToast ToastKind.success) = 0 ∧
    (submitForm p st (StoreResult.error msg)).2.countP Effect.isRefresh
      = 0 := by
  unfold submitForm
  rw [hv]
  refine ⟨rfl, he, ?_, ?_, ?_⟩ <;>
    simp [List.countP_cons, List.countP_nil, Effect.isToast, Effect.isRefresh]

/-- Witness for C3 on a concrete valid draft and error result. -/
theorem update_failure_preserves_state_witness :
    (submitForm p0 stValid (StoreResult.error "boom")).1 = stValid ∧
    (submitForm p0 stValid (StoreResult.error "boom")).2.countP
      (Effect.isToast ToastKind.error) = 1 := by
  have h := update_failure_preserves_state p0 stValid "boom" dSp0
    (by decide) (by decide)
  exact ⟨h.1, h.2.2.1⟩

/-- C9: when the draft validates and the store acknowledges the
update, editing turns off, the form values are replaced by the parsed
(normalized) data, and the handler emits the update, exactly one
refresh and exactly one success toast, in that order. -/
theorem update_success_commits_draft (p : Props) (st : CardState)
    (d : ParsedData) (hv : validate st.formValues = some d) :
    (submitForm p st StoreResult.ok).1.isEditing = false ∧
    (submitForm p st StoreResult.ok).1.formValues = dataToDraft d ∧
    (submitForm p st StoreResult.ok).2
      = [Effect.updateRecord p.species.id d, Effect.refresh,
         Effect.toast ToastKind.success] ∧
    (submitForm p st StoreResult.ok).2.countP Effect.isRefresh = 1 ∧
    (submitForm p st StoreResult.ok).2.countP
      (Effect.isToast ToastKind.success) = 1 := by
  unfold submitForm
  rw [hv]
  refine ⟨rfl, rfl, rfl, ?_, ?_⟩ <;>
    simp [List.countP_cons, List.countP_nil, Effect.isToast, Effect.isRefresh]

/-- Witness for C9: submitting `"  Cavia aperea  "` commits the
trimmed `"Cavia aperea"`, closes edit mode, and refreshes and toasts
success once each. -/
theorem update_success_commits_draft_witness :
    (submitForm p0 stCavia StoreResult.ok).1.isEditing = false ∧
    (submitForm p0 stCavia StoreResult.ok).1.formValues.scientific_name
      = "Cavia aperea" ∧
    (submitForm p0 stCavia StoreResult.ok).2.countP Effect.isRefresh = 1 ∧
    (submitForm p0 stCavia StoreResult.ok).2.countP
      (Effect.isToast ToastKind.success) = 1 := by
  have h := update_success_commits_draft p0 stCavia dCavia (by decide)
  refine ⟨h.1, ?_, h.2.2.2.1, h.2.2.2.2⟩
  rw [h.2.1]
  decide

/-- C1 counterexample: with the delete confirmation open, confirming a
delete that fails at the store leaves `openDelete` still `true` — the
handler never closes the dialog, so the claimed transition of
`openDelete` to `false` does not happen. -/
theorem confirmDelete_dialog_not_closed :
    (step p0 stDelOpen
        (Event.clickConfirmDelete (StoreResult.error "db failure"))).map
      (fun out => out.1.openDelete) = some true := by decide

/-- C1 (amended): whenever the confirm-delete control fires, whatever
the store result, the handler leaves the component state (including
`openDelete`) entirely unchanged, issues exactly one refresh and
exactly one success toast. -/
theorem confirmDelete_unconditional_refresh_and_toast (p : Props)
    (st : CardState) (res : StoreResult) (out : CardState × List Effect)
    (h : step p st (Event.clickConfirmDelete res) = some out) :
    out.1 = st ∧ out.1.openDelete = st.openDelete ∧
    out.2.countP Effect.isRefresh = 1 ∧
    out.2.countP (Effect.isToast ToastKind.success) = 1 := by
  simp only [step] at h
  split at h
  · rw [Option.some.injEq] at h
    subst h
    refine ⟨rfl, rfl, ?_, ?_⟩ <;>
      simp [startDeleting, List.countP_cons, List.countP_nil,
        Effect.isRefresh, Effect.isToast]
  · cases h

/-- Witness for the amended C1 at a concrete failing delete. -/
theorem confirmDelete_unconditional_witness :
    (startDeleting p0 stDelOpen (StoreResult.error "db failure")).1
      = stDelOpen ∧
    (startDeleting p0 stDelOpen
        (StoreResult.error "db failure")).2.countP Effect.isRefresh = 1 := by
  have h := confirmDelete_unconditional_refresh_and_toast p0 stDelOpen
    (StoreResult.error "db failure")
    (startDeleting p0 stDelOpen (StoreResult.error "db failure"))
    (by decide)
  exact ⟨h.1, h.2.2.1⟩

/-- C2 counterexample: the delete handler issues a refresh even though
the store returned an error, so the refresh signal is not reserved for
acknowledged-successful writes. -/
theorem refresh_after_failed_delete :
    (step p0 stDelOpen
        (Event.clickConfirmDelete (StoreResult.error "db failure"))).map
      (fun out => out.2.countP Effect.isRefresh) = some 1 := by decide

/-- C2 (amended): for the update path, refresh fires only on a store
success (never on an error result, once on success of a valid draft);
for the delete path, refresh fires unconditionally, whatever the
result. -/
theorem refresh_gating (p : Props) (st : CardState) (msg : String)
    (res : StoreResult) (d : ParsedData) :
    (submitForm p st (StoreResult.error msg)).2.countP Effect.isRefresh
      = 0 ∧
    (validate st.formValues = some d →
      (submitForm p st StoreResult.ok).2.countP Effect.isRefresh = 1) ∧
    (startDeleting p st res).2.countP Effect.isRefresh = 1 := by
  refine ⟨?_, ?_, ?_⟩
  · unfold submitForm
    cases hv : validate st.formValues <;>
      simp [List.countP_cons, List.countP_nil, Effect.isRefresh]
  · intro hv
    unfold submitForm
    rw [hv]
    simp [List.countP_cons, List.countP_nil, Effect.isRefresh]
  · simp [startDeleting, List.countP_cons, List.countP_nil, Effect.isRefresh]

/-- Witness for the amended C2 at concrete inputs. -/
theorem refresh_gating_witness :
    (submitForm p0 stValid (StoreResult.error "boom")).2.countP
      Effect.isRefresh = 0 ∧
    (submitForm p0 stValid StoreResult.ok).2.countP Effect.isRefresh = 1 ∧
    (startDeleting p0 stDelOpen (StoreResult.error "boom")).2.countP
      Effect.isRefresh = 1 := by
  have h := refresh_gating p0 stValid "boom"
    (StoreResult.error "boom") dSp0
  refine ⟨h.1, h.2.1 (by decide), ?_⟩
  have h2 := refresh_gating p0 stDelOpen "boom"
    (StoreResult.error "boom") dSp0
  exact h2.2.2

/-- C7: a viewer who does not own the record can never enter editing
mode or open the delete confirmation: every mutating control is
rendered only inside the ownership branch, so all reachable states
keep both flags off. -/
theorem nonowner_never_mutates (p : Props) (st : CardState)
    (how : isOwner p = false) (hr : Reachable p st) :
    st.isEditing = false ∧ st.openDelete = false := by
  induction hr with
  | init => exact ⟨rfl, rfl⟩
  | next hre hstep ih =>
    rename_i st1 st2 e effs
    cases e with
    | setOpen b =>
      simp only [step, Option.some.injEq, Prod.mk.injEq] at hstep
      obtain ⟨h1, -⟩ := hstep
      subst h1
      exact ih
    | edit f =>
      simp only [step] at hstep
      split at hstep
      · simp only [Option.some.injEq, Prod.mk.injEq] at hstep
        obtain ⟨h1, -⟩ := hstep
        subst h1
        exact ih
      · exact Option.noConfusion hstep
    | clickEdit =>
      simp only [step] at hstep
      split at hstep
      · rename_i hg
        simp [how] at hg
      · exact Option.noConfusion hstep
    | clickCancel =>
      simp only [step] at hstep
      split at hstep
      · rename_i hg
        simp [how] at hg
      · exact Option.noConfusion hstep
    | submit res =>
      simp only [step] at hstep
      split at hstep
      · simp only [Option.some.injEq] at hstep
        have h1 : st2 = (submitForm p st1 res).1 := by rw [hstep]
        subst h1
        unfold submitForm
        cases hv : validate st1.formValues with
        | none => exact ih
        | some data =>
          cases res with
          | error msg => exact ih
          | ok => exact ⟨rfl, ih.2⟩
      · exact Option.noConfusion hstep
    | setDeleteOpen b =>
      simp only [step] at hstep
      split at hstep
      · rename_i hg
        simp [how] at hg
      · exact Option.noConfusion hstep
    | clickConfirmDelete r =>
      simp only [step] at hstep
      split at hstep
      · rename_i hg
        simp [how] at hg
      · exact Option.noConfusion hstep
    | clickCancelDelete =>
      simp only [step] at hstep
      split at hstep
      · rename_i hg
        simp [how] at hg
      · exact Option.noConfusion hstep

/-- Witness for C7: the non-owner card in its initial state, reached
by the empty interaction sequence, has both flags off. -/
theorem nonowner_never_mutates_witness :
    (initialState pNon).isEditing = false ∧
    (initialState pNon).openDelete = false :=
  nonowner_never_mutates pNon (initialState pNon) (by decide)
    Reachable.init

/-- C8 counterexample: commit `"B"` through a successful submit, edit
again to `"C"`, then cancel — the draft comes back as the original
prop value `"A"`, not the committed-before-beginEdit value `"B"`,
because `handleCancel` resets to the prop-derived `defaultValues`. -/
theorem cancel_restores_prop_values_not_committed :
    (runEvents p0 (initialState p0)
        [Event.setOpen true, Event.clickEdit,
         Event.edit (FieldEdit.scientificName "B"),
         Event.submit StoreResult.ok]).formValues.scientific_name
      = "B" ∧
    (runEvents p0 (initialState p0)
        [Event.setOpen true, Event.clickEdit,
         Event.edit (FieldEdit.scientificName "B"),
         Event.submit StoreResult.ok, Event.clickEdit,
         Event.edit (FieldEdit.scientificName "C"),
         Event.clickCancel]).formValues.scientific_name = "A" ∧
    (("A" : String) == "B") = false := by decide

/-- C8 (amended): cancel resets every draft field to the prop-derived
default values of the mount (not to values committed by an earlier
submit in the same mount), turns editing off and emits no effect; and
no interaction other than a submit ever emits an update to the store,
so draft mutations reach the stored record only through a successful
submit. -/
theorem cancel_resets_to_prop_defaults (p : Props) (st : CardState)
    (out : CardState × List Effect)
    (h : step p st Event.clickCancel = some out) :
    out.1.formValues = defaultValues p.species ∧
    out.1.isEditing = false ∧ out.2 = [] ∧
    ∀ (st2 : CardState) (e : Event) (out2 : CardState × List Effect),
      step p st2 e = some out2 → Event.isSubmit e = false →
      out2.2.countP Effect.isUpdate = 0 := by
  simp only [step] at h
  split at h
  · rw [Option.some.injEq] at h
    subst h
    refine ⟨rfl, rfl, rfl, ?_⟩
    intro st2 e out2 h2 hns
    cases e with
    | setOpen b =>
      simp only [step, Option.some.injEq] at h2
      subst h2
      rfl
    | edit f =>
      simp only [step] at h2
      split at h2
      · simp only [Option.some.injEq] at h2
        subst h2
        rfl
      · exact Option.noConfusion h2
    | clickEdit =>
      simp only [step] at h2
      split at h2
      · simp only [Option.some.injEq] at h2
        subst h2
        rfl
      · exact Option.noConfusion h2
    | clickCancel =>
      simp only [step] at h2
      split at h2
      · simp only [Option.some.injEq] at h2
        subst h2
        rfl
      · exact Option.noConfusion h2
    | submit res => simp [Event.isSubmit] at hns
    | setDeleteOpen b =>
      simp only [step] at h2
      split at h2
      · simp only [Option.some.injEq] at h2
        subst h2
        rfl
      · exact Option.noConfusion h2
    | clickConfirmDelete r =>
      simp only [step] at h2
      split at h2
      · simp only [Option.some.injEq] at h2
        subst h2
        simp [startDeleting, List.countP_cons, List.countP_nil,
          Effect.isUpdate]
      · exact Option.noConfusion h2
    | clickCancelDelete =>
      simp only [step] at h2
      split at h2
      · simp only [Option.some.injEq] at h2
        subst h2
        rfl
      · exact Option.noConfusion h2
  · exact Option.noConfusion h

/-- Witness for the amended C8: cancelling from a concrete editing
state with a mutated draft lands exactly on the prop defaults. -/
theorem cancel_resets_witness :
    (handleCancel p0 stEdit).formValues = defaultValues sp0 ∧
    (handleCancel p0 stEdit).isEditing = false := by
  have h := cancel_resets_to_prop_defaults p0 stEdit
    (handleCancel p0 stEdit, []) (by decide)
  exact ⟨h.1, h.2.1⟩
